import Mathlib

/-!
Verification development for a retrieval-augmented cooking question-answering
engine.  The Python sources (`src/rag/pipeline.py`, `src/rag/chunking.py`) are
embedded shallowly: strings are Lean `String`s (Python code points are chars),
dictionaries become structures or association lists, exceptions become
`Except`, and the external embedding / generation capabilities become an
explicit environment of oracle functions.
-/

/- ## Python string primitives, modelled over `List Char` -/

/-- Check that `needle` is a prefix of `hay` (character-wise). -/
def isPrefixOfChars : List Char → List Char → Bool
  | [], _ => true
  | _ :: _, [] => false
  | a :: as, b :: bs => a == b && isPrefixOfChars as bs

/-- Python substring test `needle in hay` on character lists. -/
def containsSub (needle : List Char) : List Char → Bool
  | [] => needle.isEmpty
  | c :: cs => isPrefixOfChars needle (c :: cs) || containsSub needle cs

/-- Python `needle in hay` for strings. -/
def strContains (hay needle : String) : Bool :=
  containsSub needle.data hay.data

/-- Python `str.lower()` (ASCII-adequate for this code base). -/
def pyLower (s : String) : String :=
  String.mk (s.data.map Char.toLower)

/-- Python `str.strip()`: drop whitespace from both ends. -/
def pyStrip (s : String) : String :=
  String.mk (((s.data.dropWhile Char.isWhitespace).reverse.dropWhile
    Char.isWhitespace).reverse)

/-- Python `str.lstrip()`. -/
def pyLstrip (s : String) : String :=
  String.mk (s.data.dropWhile Char.isWhitespace)

/-- Python `str.removeprefix(pre)`. -/
def pyRemovePre (pre s : String) : String :=
  if isPrefixOfChars pre.data s.data then String.mk (s.data.drop pre.data.length)
  else s

/-- The part of `hay` before the first occurrence of `needle`
(Python `hay.split(needle)[0]`; the whole string when absent). -/
def cutAtSub (needle : List Char) : List Char → List Char
  | [] => []
  | c :: cs =>
    if isPrefixOfChars needle (c :: cs) then [] else c :: cutAtSub needle cs

/-- `cutAtSub` on strings. -/
def cutAt (needle s : String) : String :=
  String.mk (cutAtSub needle.data s.data)

/-- Python `str.split(sep)` for a one-character separator, on char lists. -/
def splitOnCharL (sep : Char) : List Char → List (List Char)
  | [] => [[]]
  | c :: cs =>
    if c = sep then [] :: splitOnCharL sep cs
    else
      match splitOnCharL sep cs with
      | [] => [[c]]
      | r :: rs => (c :: r) :: rs

/-- Python `s.split(sep)` for a one-character separator, on strings. -/
def splitOnCharS (sep : Char) (s : String) : List String :=
  (splitOnCharL sep s.data).map String.mk

/-- Helper for `pyWords`: accumulate the current (reversed) word. -/
def pyWordsAux : List Char → List Char → List (List Char)
  | acc, [] => if acc.isEmpty then [] else [acc.reverse]
  | acc, c :: cs =>
    if c.isWhitespace then
      if acc.isEmpty then pyWordsAux [] cs else acc.reverse :: pyWordsAux [] cs
    else pyWordsAux (c :: acc) cs

/-- Python `str.split()` with no argument: whitespace-delimited words. -/
def pyWords (s : String) : List String :=
  (pyWordsAux [] s.data).map String.mk

/-- Python `sep.join(xs)`. -/
def joinWith (sep : String) : List String → String
  | [] => ""
  | [x] => x
  | x :: y :: xs => x ++ sep ++ joinWith sep (y :: xs)

/-- The last `n` elements of a list, in order (Python `l[-n:]`). -/
def takeLastN {α : Type} (n : Nat) (l : List α) : List α :=
  (l.reverse.take n).reverse

/-- Helper for `dedupFirst`: drop elements already seen. -/
def dedupFirstAux {α : Type} [DecidableEq α] (seen : List α) :
    List α → List α
  | [] => []
  | x :: xs =>
    if x ∈ seen then dedupFirstAux seen xs
    else x :: dedupFirstAux (x :: seen) xs

/-- First-seen-order deduplication (Python `dict.fromkeys`; also used to model
iterating a Python `set` built from a list, whose element order the claims
never depend on). -/
def dedupFirst {α : Type} [DecidableEq α] (l : List α) : List α :=
  dedupFirstAux [] l

/-- Python `str.title()` (ASCII-adequate): uppercase each letter that does not
follow a letter, lowercase the rest. -/
def pyTitleL : Bool → List Char → List Char
  | _, [] => []
  | prevAlpha, c :: cs =>
    (if c.isAlpha then (if prevAlpha then c.toLower else c.toUpper) else c) ::
      pyTitleL c.isAlpha cs

/-- Python `str.title()` on strings. -/
def pyTitle (s : String) : String :=
  String.mk (pyTitleL false s.data)

/-- Python `s.replace(a, b)` for one-character patterns. -/
def replaceChar (a b : Char) (s : String) : String :=
  String.mk (s.data.map (fun c => if c = a then b else c))

/-- Decimal rendering of a natural number (Python `str(n)` / f-string slot). -/
def natStr (n : Nat) : String := Nat.repr n

/- ## Pipeline data model (`src/rag/pipeline.py`) -/

/-- One conversation turn `{'user': ..., 'assistant': ...}`. -/
structure Turn where
  user : String
  assistant : String
deriving DecidableEq

/-- The single metadata field the pipeline reads from a retrieved document:
`m.get('source', 'unknown')`.  `none` models an absent key. -/
structure PMeta where
  source : Option String
deriving DecidableEq

/-- One Chroma query result for a single query text: `results['documents'][0]`
and `results['metadatas'][0]` (the pipeline always queries one text, so the
inner lists are modelled directly). -/
structure RetRes where
  documents : List String
  metadatas : List PMeta
deriving DecidableEq

/-- A Python exception raised by the generation capability: its class
(`RuntimeError` or not) and its message `str(e)`. -/
structure Err where
  isRuntime : Bool
  msg : String
deriving DecidableEq

deriving instance DecidableEq for Except

/-- The external capabilities the pipeline calls: `self.db.query`, the
decomposition LLM call (`self.llm` in `_answer_with_reasoning`, returning
`generated_text` or raising), and the answer LLM call (`self.llm` in
`_generate_answer`, keyed by its `do_sample` flag — the remaining decoding
constants are fixed in the source and carried by the capability). -/
structure Env where
  query : String → Nat → RetRes
  decompose : String → Except Err String
  generate : String → Bool → Except Err String

/-- Keyword list of `answer_question`'s reasoning classifier
(pipeline.py lines 60-64). -/
def reasoningKeywords : List String :=
  ["why", "how", "explain", "what happens", "difference", "compare",
   "should i", "can i", "substitute", "instead of", "alternative",
   "better", "versus", "vs", "or"]

/-- `needs_reasoning` test of `answer_question`: any keyword occurs as a
substring of the lowercased question. -/
def needs_reasoning (question : String) : Bool :=
  reasoningKeywords.any (fun w => strContains (pyLower question) w)

/-- Reference words of `_rewrite_query_with_context` (pipeline.py line 34). -/
def referenceWords : List String :=
  ["it", "that", "this", "them", "those", "the same", "also", "too"]

/-- `RAGPipeline._rewrite_query_with_context` (pipeline.py lines 28-54). -/
def rewrite_query_with_context (history : List Turn) (question : String) :
    String :=
  if history = [] then question
  else
    let hasReference :=
      referenceWords.any (fun w => strContains (pyLower question) w)
    let isShort := (pyWords question).length < 5
    if !(hasReference || isShort) then question
    else
      let recent := takeLastN 2 history
      let historyText := joinWith "\n"
        (recent.map (fun t =>
          "User: " ++ t.user ++ "\nAssistant: " ++
            String.mk (t.assistant.data.take 100)))
      "Given previous discussion:\n" ++ historyText ++
        "\n\nCurrent question: " ++ question

/- ## Generation, sanitization and the two answer paths -/

/-- The instruction prompt of `RAGPipeline._generate_answer`
(pipeline.py lines 180-203), with the context and question interpolated. -/
def buildPrompt (context_text question : String) : String :=
  "<|system|>\nYou are a helpful cooking assistant. Answer the user\x27s question using ONLY the context provided below. Be conversational and friendly.\n\nCRITICAL RULES:\n- Do not repeat rules below in your response.\n- If the context doesn\x27t contain the answer, say \"I don\x27t have that information in my knowledge base\".\n- Keep answers under 150 words.\n- Responses should be natural and conversational speech.\n- Focus on practical, actionable advice.\n- Prioritize the \"Context from knowledge base\" for facts.\n- Use **bold** for ingredients.\n- Use numbered lists for instructions.\n- If the previous contexts are irrelevent to the new query, ignore previous contexts.\n- ALWAYS end your response with a complete sentence and a closing remark like \"Enjoy your meal!\" or \"Happy cooking!\".\n<|end|>\n\n<|user|>\nContext:\n" ++ context_text ++ "\n\nQuestion: " ++ question ++ "\n<|end|>\n\n<|assistant|>"

/-- Delimiter tokens stripped from raw model output (pipeline.py line 236). -/
def specialTokens : List String :=
  ["<|assistant|>", "<|user|>", "<|end|>", "<|system|>", "</s>"]

/-- Output cleanup of `_generate_answer` (pipeline.py lines 235-245): cut at
each special token, cut at any partial `<|` fragment, then
`lstrip().removeprefix("Response:").removeprefix("Answer:").strip()`. -/
def sanitize (answer : String) : String :=
  let a := specialTokens.foldl (fun acc tok => cutAt tok acc) answer
  let a := cutAt "<|" a
  pyStrip (pyRemovePre "Answer:" (pyRemovePre "Response:" (pyLstrip a)))

/-- An error is caught for the greedy retry exactly when it is a
`RuntimeError` whose message mentions "probability", "inf" or "nan"
(pipeline.py lines 220-221). -/
def isDegenerate (e : Err) : Bool :=
  e.isRuntime &&
    (strContains e.msg "probability" || strContains e.msg "inf" ||
      strContains e.msg "nan")

/-- `RAGPipeline._generate_answer` (pipeline.py lines 176-247): try the
sampled call; on a degenerate-probability `RuntimeError` retry once with
greedy decoding; propagate every other failure; sanitize the output. -/
def generate_answer (env : Env) (question context_text : String) :
    Except Err String :=
  let prompt := buildPrompt context_text question
  match env.generate prompt true with
  | .ok out => .ok (sanitize out)
  | .error e =>
    if isDegenerate e then
      match env.generate prompt false with
      | .ok out => .ok (sanitize out)
      | .error e2 => .error e2
    else .error e

/-- Join retrieved contexts with the visible separator and truncate at the
1200-character budget (pipeline.py lines 87-91 and 155-158). -/
def contextOf (contexts : List String) : String :=
  let context_text := joinWith "\n\n---\n\n" contexts
  if 1200 < context_text.data.length then
    String.mk (context_text.data.take 1200) ++ "..."
  else context_text

/-- Origin identifier of one retrieved document, stripped to its base name:
`m.get('source', 'unknown').split('/')[-1]` (pipeline.py lines 107 and 172). -/
def baseName (m : PMeta) : String :=
  (splitOnCharS '/' (m.source.getD "unknown")).getLastD ""

/-- Source list computation `list(set([... for m in metadatas]))`
(pipeline.py lines 107 and 172); the Python set is modelled in first-seen
order, which the claims (set content, no duplicates) do not depend on. -/
def sourcesOf (metadatas : List PMeta) : List String :=
  dedupFirst (metadatas.map baseName)

/-- History commit of both answer paths (pipeline.py lines 96-104 and
163-170): append the turn, then keep only the last 10 turns. -/
def pushTurn (history : List Turn) (t : Turn) : List Turn :=
  if 10 < (history ++ [t]).length then takeLastN 10 (history ++ [t])
  else history ++ [t]

/-- `RAGPipeline._answer_simple` (pipeline.py lines 73-109).  The returned
triple is `(answer, sources, new conversation history)`; an `Except.error`
models an uncaught exception (history unchanged). -/
def answer_simple (env : Env) (history : List Turn) (question : String) :
    Except Err (String × List String × List Turn) :=
  let results := env.query (rewrite_query_with_context history question) 3
  if results.documents = [] then
    .ok ("I couldn\x27t find any relevant cooking info in my database.", [],
      history)
  else
    match generate_answer env question (contextOf results.documents) with
    | .error e => .error e
    | .ok answer =>
      .ok (answer, sourcesOf results.metadatas,
        pushTurn history ⟨question, answer⟩)

/-- Decomposition prompt of `_answer_with_reasoning` (pipeline.py line 118). -/
def breakdownPrompt (contextualized_query : String) : String :=
  "Break this cooking question into 2 simple sub-questions:\n\nQuestion: " ++
    contextualized_query ++ "\n\nSub-questions:\n1."

/-- Sub-question parsing of `_answer_with_reasoning` (pipeline.py line 130):
stripped non-blank lines containing at least one letter, capped at 2. -/
def parseSubs (breakdown : String) : List String :=
  (((splitOnCharS '\n' breakdown).filter
      (fun q => pyStrip q ≠ "" && q.data.any Char.isAlpha)).map pyStrip).take 2

/-- Per-sub-question retrieval loop of `_answer_with_reasoning`
(pipeline.py lines 141-148): accumulate documents and metadatas, skipping
sub-questions whose retrieval is empty. -/
def collectSubResults (env : Env) (subs : List String) :
    List String × List PMeta :=
  subs.foldl
    (fun acc sq =>
      let r := env.query sq 2
      if r.documents = [] then acc
      else (acc.1 ++ r.documents, acc.2 ++ r.metadatas))
    ([], [])

/-- `RAGPipeline._answer_with_reasoning` (pipeline.py lines 111-174). -/
def answer_with_reasoning (env : Env) (history : List Turn)
    (question : String) : Except Err (String × List String × List Turn) :=
  let contextualized := rewrite_query_with_context history question
  match env.decompose (breakdownPrompt contextualized) with
  | .error _ => answer_simple env history question
  | .ok gen =>
    let sub_questions := parseSubs (pyStrip gen)
    if sub_questions = [] then answer_simple env history question
    else
      let collected := collectSubResults env sub_questions
      if collected.1 = [] then
        .ok ("I couldn\x27t find relevant information.", [], history)
      else
        let unique_contexts := (dedupFirst collected.1).take 3
        match generate_answer env question (contextOf unique_contexts) with
        | .error e => .error e
        | .ok answer =>
          .ok (answer, sourcesOf collected.2,
            pushTurn history ⟨question, answer⟩)

/-- `RAGPipeline.answer_question` (pipeline.py lines 56-71). -/
def answer_question (env : Env) (history : List Turn) (question : String) :
    Except Err (String × List String × List Turn) :=
  if needs_reasoning question then answer_with_reasoning env history question
  else answer_simple env history question

/-- A sequence of `answer_question` calls threading the conversation history
(an uncaught exception leaves the history untouched). -/
def runAnswers (env : Env) (questions : List String) (history : List Turn) :
    List Turn :=
  questions.foldl
    (fun h q =>
      match answer_question env h q with
      | .ok r => r.2.2
      | .error _ => h)
    history

/- ## Chunk data model (`src/rag/chunking.py`) -/

/-- A scalar metadata value of a chunk (Python dict value: string, int, or
`None`). -/
inductive MVal where
  | s (v : String)
  | n (v : Nat)
  | null
deriving DecidableEq

/-- A chunk `{'text': ..., 'metadata': {...}}`; metadata is a string-keyed
dict in insertion order. -/
structure Chunk where
  text : String
  metadata : List (String × MVal)
deriving DecidableEq

/-- Python `{**md, k: v}`: overwrite `k` in place when present, else append. -/
def metaSet (md : List (String × MVal)) (k : String) (v : MVal) :
    List (String × MVal) :=
  if md.any (fun p => p.1 = k) then
    md.map (fun p => if p.1 = k then (k, v) else p)
  else md ++ [(k, v)]

/- ## Ingredient-pair chunker (`chunk_ingredient_data_json`) -/

/-- One record of `data['ingredient_pairs']`. -/
structure PairRec where
  ingredient1 : String
  ingredient2 : String
  num_shared_compound : Nat
deriving DecidableEq

/-- One value of `data['ingredients']`: `category` may be absent,
`prevalence` defaults to 0. -/
structure IngInfo where
  category : Option String
  prevalence : Rat

/-- The `ingredient_data.json` shape: both top-level keys are optional. -/
structure IngredientData where
  ingredient_pairs : Option (List PairRec)
  ingredients : Option (List (String × IngInfo))

/-- Pairing-strength label (chunking.py line 188):
`"strongly" if shared > 30 else "moderately" if shared > 15 else
"somewhat"`. -/
def pairingStrength (shared : Nat) : String :=
  if 30 < shared then "strongly"
  else if 15 < shared then "moderately"
  else "somewhat"

/-- The chunk built for one ingredient pair (chunking.py lines 183-203). -/
def pairChunk (source_file : String) (pair : PairRec) : Chunk :=
  let ing1 := pyTitle (replaceChar '_' ' ' pair.ingredient1)
  let ing2 := pyTitle (replaceChar '_' ' ' pair.ingredient2)
  let shared := pair.num_shared_compound
  let ps := pairingStrength shared
  { text := "Ingredient Pairing: " ++ ing1 ++ " and " ++ ing2 ++ "\n\n" ++
      "These ingredients share " ++ natStr shared ++
      " chemical compounds, suggesting they " ++ ps ++
      " complement each other.\n" ++
      "Pairing strength: " ++ pyTitle ps ++ "\nShared compounds: " ++
      natStr shared,
    metadata := [("type", .s "ingredient_pairing"),
      ("ingredient1", .s pair.ingredient1),
      ("ingredient2", .s pair.ingredient2),
      ("shared_compounds", .n shared),
      ("source", .s source_file)] }

/-- Round to the nearest integer, ties to even (decimal model of CPython
`format` rounding; binary-float artifacts are out of scope and no claim
depends on this function). -/
def roundHalfEven (q : Rat) : Int :=
  let f := ⌊q⌋
  let frac := q - f
  if frac < 1/2 then f
  else if 1/2 < frac then f + 1
  else if f % 2 = 0 then f else f + 1

/-- Python `f"{r:.2%}"` on a nonnegative rational. -/
def formatPercent (r : Rat) : String :=
  let n := (roundHalfEven (r * 10000)).natAbs
  let sign := if roundHalfEven (r * 10000) < 0 then "-" else ""
  sign ++ natStr (n / 100) ++ "." ++ (if n % 100 < 10 then "0" else "") ++
    natStr (n % 100) ++ "%"

/-- The chunk built for one entry of `data['ingredients']`
(chunking.py lines 207-217). -/
def infoChunk (source_file : String) (p : String × IngInfo) : Chunk :=
  let ing_name := pyTitle (replaceChar '_' ' ' p.1)
  { text := "Ingredient: " ++ ing_name ++ "\nCategory: " ++
      pyTitle (p.2.category.getD "unknown") ++ "\nPrevalence: " ++
      formatPercent p.2.prevalence,
    metadata := [("type", .s "ingredient_info"),
      ("ingredient", .s p.1),
      ("category", match p.2.category with | some c => .s c | none => .null),
      ("source", .s source_file)] }

/-- `chunk_ingredient_data_json` (chunking.py lines 178-219). -/
def chunk_ingredient_data_json (data : IngredientData)
    (source_file : String) : List Chunk :=
  (match data.ingredient_pairs with
   | some ps => ps.map (pairChunk source_file)
   | none => []) ++
  (match data.ingredients with
   | some ings => ings.map (infoChunk source_file)
   | none => [])

/- ## Cuisine chunker (`chunk_cuisine_ingredients_dict`) -/

/-- The cuisine→list-of-recipes mapping, as an insertion-ordered dict. -/
abbrev CuisineDict := List (String × List (List String))

/-- Stable insertion for descending-by-count sort. -/
def insDescNat (x : String × Nat) : List (String × Nat) → List (String × Nat)
  | [] => [x]
  | y :: ys => if y.2 ≤ x.2 then x :: y :: ys else y :: insDescNat x ys

/-- Python `sorted(items, key=count, reverse=True)`: stable descending sort
(ties keep first-seen order). -/
def sortDescByCount (l : List (String × Nat)) : List (String × Nat) :=
  l.foldr insDescNat []

/-- Insertion for ascending lexicographic sort of strings. -/
def insAscStr (x : String) : List String → List String
  | [] => [x]
  | y :: ys => if x ≤ y then x :: y :: ys else y :: insAscStr x ys

/-- Python `sorted(strings)`. -/
def sortStrings (l : List String) : List String :=
  l.foldr insAscStr []

/-- `ingredient_freq` of one cuisine (chunking.py lines 110-113): a
`defaultdict(int)` over all ingredient occurrences; keys in first-occurrence
order. -/
def ingredientFreq (recipe_list : List (List String)) : List (String × Nat) :=
  let occurrences := recipe_list.flatten
  (dedupFirst occurrences).map (fun i => (i, occurrences.count i))

/-- The cuisine-profile chunk (chunking.py lines 108-136). -/
def cuisineProfileChunk (source_file : String)
    (p : String × List (List String)) : Chunk :=
  let freq := ingredientFreq p.2
  let top_ingredients := (sortDescByCount freq).take 15
  let ing_list := joinWith ", "
    (top_ingredients.map (fun q => pyTitle (replaceChar '_' ' ' q.1)))
  { text := p.1 ++ " Cuisine\n\nCommon ingredients: " ++ ing_list ++
      "\n\nBased on " ++ natStr p.2.length ++ " recipes with " ++
      natStr freq.length ++ " unique ingredients.",
    metadata := [("type", .s "cuisine_profile"),
      ("cuisine", .s (pyLower p.1)),
      ("num_recipes", .n p.2.length),
      ("source", .s source_file)] }

/-- All ingredient occurrences in dict-traversal order. -/
def allIngredients (d : CuisineDict) : List String :=
  (d.map (fun p => p.2.flatten)).flatten

/-- `ingredient_to_cuisines[i]` (chunking.py lines 139-144): the distinct
cuisines containing `i`, in first-add order (set contents; order is only used
through `len` and `sorted`). -/
def cuisinesOf (d : CuisineDict) (i : String) : List String :=
  dedupFirst ((d.filter (fun p => i ∈ p.2.flatten)).map Prod.fst)

/-- The ingredient-to-cuisine-map chunk (chunking.py lines 147-166). -/
def ingredientMapChunk (d : CuisineDict) (source_file : String) (i : String) :
    Chunk :=
  let cuisines := cuisinesOf d i
  let ing_name := pyTitle (replaceChar '_' ' ' i)
  let cuisine_list := joinWith ", " (sortStrings cuisines)
  { text := "Ingredient: " ++ ing_name ++ "\n\nFound in " ++
      natStr cuisines.length ++ " cuisines: " ++ cuisine_list ++
      "\n\nThis ingredient appears across multiple culinary traditions.",
    metadata := [("type", .s "ingredient_cuisine_map"),
      ("ingredient", .s i),
      ("num_cuisines", .n cuisines.length),
      ("source", .s source_file)] }

/-- `chunk_cuisine_ingredients_dict` (chunking.py lines 98-176): one profile
chunk per cuisine, then one map chunk per ingredient found in at least two
distinct cuisines.  The `try/except` wrapper only fires on a malformed
record, which the typed input rules out, and the `print` calls are I/O. -/
def chunk_cuisine_ingredients_dict (cuisine_dict : CuisineDict)
    (source_file : String) : List Chunk :=
  let profiles := cuisine_dict.map (cuisineProfileChunk source_file)
  let maps := ((dedupFirst (allIngredients cuisine_dict)).filter
      (fun i => 2 ≤ (cuisinesOf cuisine_dict i).length)).map
    (ingredientMapChunk cuisine_dict source_file)
  profiles ++ maps

/- ## Chunk splitter (`apply_recursive_chunking`) -/

/-- The ordered separator list passed to the splitter
(chunking.py line 272). -/
def splitSeps : List (List Char) :=
  [['\n', '\n'], ['\n'], ['.'], ['!'], ['?'], [' ']]

/-- Does `piece` end with `sep`? -/
def endsWithSep (sep piece : List Char) : Bool :=
  isPrefixOfChars sep.reverse piece.reverse

/-- Largest `p` with `1 ≤ p ≤ bound` such that `sep` ends at position `p` of
`cs` (scanning downward from `bound`). -/
def bestEnd (sep cs : List Char) : Nat → Option Nat
  | 0 => none
  | p + 1 =>
    if endsWithSep sep (cs.take (p + 1)) then some (p + 1)
    else bestEnd sep cs p

/-- Cut position for an oversized text: the latest in-budget end of the
earliest separator that occurs in budget; the budget itself when no
separator occurs (hard split). -/
def chooseCut : List (List Char) → List Char → Nat → Nat
  | [], _, budget => budget
  | s :: rest, cs, budget =>
    match bestEnd s cs budget with
    | some p => p
    | none => chooseCut rest cs budget

/-- Core recursive split: emit pieces of at most `budget` characters, cutting
at separator boundaries when possible. -/
def splitCore (budget : Nat) (cs : List Char) : List (List Char) :=
  if h : cs.length ≤ budget then [cs]
  else
    let c := max 1 (chooseCut splitSeps cs budget)
    cs.take c :: splitCore budget (cs.drop c)
termination_by cs.length
decreasing_by
  simp only [List.length_drop]
  have h2 : 1 ≤ max 1 (chooseCut splitSeps cs budget) := le_max_left _ _
  omega

/-- Prefix every piece after the first with the trailing `ov` characters of
its predecessor. -/
def overlapGo (ov : Nat) : List Char → List (List Char) → List (List Char)
  | _, [] => []
  | prev, q :: qs => (takeLastN ov prev ++ q) :: overlapGo ov q qs

/-- Add the trailing overlap to a list of pieces. -/
def withOverlap (ov : Nat) : List (List Char) → List (List Char)
  | [] => []
  | p :: ps => p :: overlapGo ov p ps

/-- Modelled from the spec: `RecursiveCharacterTextSplitter.split_text` is
library code (`langchain_text_splitters`), not in src/.  Following spec §4.2,
the text is split recursively on the ordered separator list (paragraph break,
line break, sentence-ending punctuation, space), preferring the latest
in-budget boundary of the earliest separator present and hard-splitting at
the budget when none occurs; each piece after the first retains the trailing
`chunk_overlap` characters of its predecessor, and every piece (overlap
included) stays within `chunk_size`. -/
def split_text (chunk_size chunk_overlap : Nat) (s : String) : List String :=
  (withOverlap chunk_overlap
    (splitCore (chunk_size - chunk_overlap) s.data)).map String.mk

/-- Python `enumerate` from a start index. -/
def enumIdx {α : Type} (start : Nat) : List α → List (Nat × α)
  | [] => []
  | x :: xs => (start, x) :: enumIdx (start + 1) xs

/-- `apply_recursive_chunking` (chunking.py lines 268-286): split only the
chunks whose text exceeds `chunk_size`; split pieces inherit the original
metadata plus a zero-based `chunk_part` index; other chunks pass through
unchanged. -/
def apply_recursive_chunking (chunks : List Chunk) (chunk_size : Nat)
    (chunk_overlap : Nat) : List Chunk :=
  chunks.flatMap (fun chunk =>
    if chunk_size < chunk.text.data.length then
      (enumIdx 0 (split_text chunk_size chunk_overlap chunk.text)).map
        (fun p =>
          { text := p.2,
            metadata := metaSet chunk.metadata "chunk_part" (.n p.1) })
    else [chunk])

/- ## Concrete environments and claim-side definitions -/

/-- Concrete environment for the C4 counterexample: the sampled call fails
with a non-`RuntimeError` whose message is "nan"; the greedy call would
succeed. -/
def envNonRuntimeNan : Env :=
  { query := fun _ _ => ⟨[], []⟩,
    decompose := fun p => .ok p,
    generate := fun _ sample =>
      if sample then .error ⟨false, "nan"⟩ else .ok "recovered" }

/-- Concrete environment for the C5 counterexample: decomposition yields two
sub-questions whose retrievals return four distinct contexts from four
distinct sources. -/
def envFourSources : Env :=
  { query := fun s _ =>
      if s = "1. sub one" then ⟨["c1", "c2"], [⟨some "p/a"⟩, ⟨some "p/b"⟩]⟩
      else if s = "2. sub two" then
        ⟨["c3", "c4"], [⟨some "p/c"⟩, ⟨some "p/d"⟩]⟩
      else ⟨[], []⟩,
    decompose := fun _ => .ok "1. sub one\n2. sub two",
    generate := fun _ _ => .ok "ans" }

/-- Helper for `dedupByText`: drop pairs whose document text was seen. -/
def dedupByTextAux (seen : List String) :
    List (String × PMeta) → List (String × PMeta)
  | [] => []
  | p :: ps =>
    if p.1 ∈ seen then dedupByTextAux seen ps
    else p :: dedupByTextAux (p.1 :: seen) ps

/-- First-seen deduplication of (document, metadata) pairs by document
text — the pairing the claim's "contexts actually used" refers to. -/
def dedupByText (l : List (String × PMeta)) : List (String × PMeta) :=
  dedupByTextAux [] l

/-- Written from the claim's words (C5), for comparison with the code: the
source list the reasoning path would return if it were computed from the
contexts actually used for generation — pair each retrieved document with
its metadata, deduplicate by document text, cap at 3, then de-duplicate the
base-named origins of those pairs. -/
def claimedSourcesReasoning (env : Env) (history : List Turn)
    (question : String) : List String :=
  match env.decompose
      (breakdownPrompt (rewrite_query_with_context history question)) with
  | .error _ => []
  | .ok gen =>
    let subs := parseSubs (pyStrip gen)
    let pairs := (subs.map (fun sq =>
      (env.query sq 2).documents.zip (env.query sq 2).metadatas)).flatten
    ((dedupByText pairs).take 3).map (fun p => baseName p.2) |> dedupFirst

/- ## Helper lemmas -/

theorem mem_dedupFirstAux {α : Type} [DecidableEq α] (l : List α) :
    ∀ (seen : List α) (x : α),
      x ∈ dedupFirstAux seen l ↔ x ∈ l ∧ x ∉ seen := by
  induction l with
  | nil => intro seen x; simp [dedupFirstAux]
  | cons y ys ih =>
    intro seen x
    unfold dedupFirstAux
    by_cases hy : y ∈ seen
    · rw [if_pos hy, ih]
      constructor
      · rintro ⟨hm, hn⟩
        exact ⟨List.mem_cons_of_mem _ hm, hn⟩
      · rintro ⟨hm, hn⟩
        rcases List.mem_cons.mp hm with rfl | hm2
        · exact absurd hy hn
        · exact ⟨hm2, hn⟩
    · rw [if_neg hy]
      constructor
      · intro hm
        rcases List.mem_cons.mp hm with rfl | hm2
        · exact ⟨List.mem_cons_self _ _, hy⟩
        · obtain ⟨hmem, hns⟩ := (ih (y :: seen) x).mp hm2
          exact ⟨List.mem_cons_of_mem _ hmem,
            fun hs => hns (List.mem_cons_of_mem _ hs)⟩
      · rintro ⟨hm, hn⟩
        rcases List.mem_cons.mp hm with rfl | hm2
        · exact List.mem_cons_self _ _
        · by_cases hxy : x = y
          · exact hxy ▸ List.mem_cons_self _ _
          · refine List.mem_cons_of_mem _ ((ih (y :: seen) x).mpr ⟨hm2, ?_⟩)
            intro hc
            rcases List.mem_cons.mp hc with h1 | h2
            · exact hxy h1
            · exact hn h2

theorem mem_dedupFirst {α : Type} [DecidableEq α] (l : List α) (x : α) :
    x ∈ dedupFirst l ↔ x ∈ l := by
  simp [dedupFirst, mem_dedupFirstAux]

theorem nodup_dedupFirstAux {α : Type} [DecidableEq α] (l : List α) :
    ∀ seen : List α, (dedupFirstAux seen l).Nodup := by
  induction l with
  | nil => intro seen; simp [dedupFirstAux]
  | cons y ys ih =>
    intro seen
    unfold dedupFirstAux
    by_cases hy : y ∈ seen
    · rw [if_pos hy]; exact ih seen
    · rw [if_neg hy]
      refine List.nodup_cons.mpr ⟨fun hmem => ?_, ih _⟩
      exact ((mem_dedupFirstAux ys (y :: seen) y).mp hmem).2
        (List.mem_cons_self _ _)

theorem nodup_dedupFirst {α : Type} [DecidableEq α] (l : List α) :
    (dedupFirst l).Nodup :=
  nodup_dedupFirstAux l []

theorem takeLastN_length {α : Type} (n : Nat) (l : List α) :
    (takeLastN n l).length = min n l.length := by
  simp [takeLastN]

theorem takeLastN_of_length_le {α : Type} {n : Nat} {l : List α}
    (h : l.length ≤ n) : takeLastN n l = l := by
  unfold takeLastN
  rw [List.take_of_length_le (by simpa using h), List.reverse_reverse]

theorem takeLastN_idem_append {α : Type} (n : Nat) (x y : List α) :
    takeLastN n (takeLastN n x ++ y) = takeLastN n (x ++ y) := by
  simp only [takeLastN, List.reverse_append, List.reverse_reverse,
    List.take_append_eq_append_take, List.take_take, List.length_reverse]
  rw [Nat.min_eq_left (Nat.sub_le _ _)]

theorem pushTurn_eq_takeLast (h : List Turn) (t : Turn) :
    pushTurn h t = takeLastN 10 (h ++ [t]) := by
  unfold pushTurn
  by_cases hlen : 10 < (h ++ [t]).length
  · rw [if_pos hlen]
  · rw [if_neg hlen]
    exact (takeLastN_of_length_le (Nat.le_of_not_lt hlen)).symm

theorem pushTurn_length_le (h : List Turn) (t : Turn) :
    (pushTurn h t).length ≤ 10 := by
  rw [pushTurn_eq_takeLast, takeLastN_length]
  exact Nat.min_le_left _ _

theorem foldl_pushTurn (ts : List Turn) :
    ∀ h : List Turn, ts ≠ [] →
      List.foldl pushTurn h ts = takeLastN 10 (h ++ ts) := by
  induction ts with
  | nil => intro h hne; exact absurd rfl hne
  | cons t ts ih =>
    intro h _
    by_cases hts : ts = []
    · subst hts
      simpa using pushTurn_eq_takeLast h t
    · calc List.foldl pushTurn h (t :: ts)
          = List.foldl pushTurn (pushTurn h t) ts := rfl
        _ = takeLastN 10 (pushTurn h t ++ ts) := ih _ hts
        _ = takeLastN 10 (takeLastN 10 (h ++ [t]) ++ ts) := by
            rw [pushTurn_eq_takeLast]
        _ = takeLastN 10 ((h ++ [t]) ++ ts) := takeLastN_idem_append ..
        _ = takeLastN 10 (h ++ t :: ts) := by
            rw [List.append_assoc, List.singleton_append]

theorem answer_simple_history (env : Env) (h : List Turn) (q a : String)
    (s : List String) (h' : List Turn)
    (heq : answer_simple env h q = .ok (a, s, h')) :
    h' = h ∨ h' = pushTurn h ⟨q, a⟩ := by
  unfold answer_simple at heq
  simp only [] at heq
  split at heq
  · simp only [Except.ok.injEq, Prod.mk.injEq] at heq
    exact Or.inl heq.2.2.symm
  · split at heq
    · simp at heq
    · simp only [Except.ok.injEq, Prod.mk.injEq] at heq
      obtain ⟨ha, _, hh⟩ := heq
      subst ha
      exact Or.inr hh.symm

theorem answer_with_reasoning_history (env : Env) (h : List Turn)
    (q a : String) (s : List String) (h' : List Turn)
    (heq : answer_with_reasoning env h q = .ok (a, s, h')) :
    h' = h ∨ h' = pushTurn h ⟨q, a⟩ := by
  unfold answer_with_reasoning at heq
  simp only [] at heq
  split at heq
  · exact answer_simple_history _ _ _ _ _ _ heq
  · split at heq
    · exact answer_simple_history _ _ _ _ _ _ heq
    · split at heq
      · simp only [Except.ok.injEq, Prod.mk.injEq] at heq
        exact Or.inl heq.2.2.symm
      · split at heq
        · simp at heq
        · simp only [Except.ok.injEq, Prod.mk.injEq] at heq
          obtain ⟨ha, _, hh⟩ := heq
          subst ha
          exact Or.inr hh.symm

theorem answer_question_history (env : Env) (h : List Turn) (q a : String)
    (s : List String) (h' : List Turn)
    (heq : answer_question env h q = .ok (a, s, h')) :
    h' = h ∨ h' = pushTurn h ⟨q, a⟩ := by
  unfold answer_question at heq
  split at heq
  · exact answer_with_reasoning_history _ _ _ _ _ _ heq
  · exact answer_simple_history _ _ _ _ _ _ heq

theorem runAnswers_length_le (env : Env) (qs : List String) :
    ∀ h : List Turn, h.length ≤ 10 → (runAnswers env qs h).length ≤ 10 := by
  induction qs with
  | nil => intro h hh; simpa [runAnswers] using hh
  | cons q qs ih =>
    intro h hh
    have hstep :
        (match answer_question env h q with
          | .ok r => r.2.2
          | .error _ => h).length ≤ 10 := by
      cases hq : answer_question env h q with
      | error e => simpa using hh
      | ok r =>
        obtain ⟨a, s, h'⟩ := r
        rcases answer_question_history env h q a s h' hq with h1 | h1
        · simpa [h1] using hh
        · simp only
          rw [h1]
          exact pushTurn_length_le _ _
    exact ih _ hstep

/- ## Claim theorems -/

/-- C1 counterexample: the question "What's for dinner" IS classified as
needing reasoning by `answer_question`, because keyword matching is a
case-insensitive substring test and the keyword "or" occurs inside "for";
the claim states it is classified as not needing reasoning. -/
theorem c1_counterexample : needs_reasoning "What\x27s for dinner" = true := by
  decide

/-- C1 (amended): "How do I sear chicken?" is classified as needing
reasoning, "What's for dinner" is ALSO classified as needing reasoning (the
keyword "or" is a substring of "for"), and a question needs reasoning
exactly when its lowercased text contains one of the fifteen keywords of
`reasoningKeywords` as a substring. -/
theorem c1_classification :
    needs_reasoning "How do I sear chicken?" = true ∧
    needs_reasoning "What\x27s for dinner" = true ∧
    ∀ q : String, needs_reasoning q = true ↔
      ∃ w ∈ reasoningKeywords, strContains (pyLower q) w = true := by
  refine ⟨by decide, by decide, fun q => ?_⟩
  simp [needs_reasoning, List.any_eq_true]

/-- C2: on the simple path, whenever retrieval for the (possibly rewritten)
query returns no documents, `answer_simple` returns exactly the fixed
no-information answer with an empty source list and the unchanged
conversation history. -/
theorem c2_simple_no_data (env : Env) (h : List Turn) (q : String)
    (hemp : (env.query (rewrite_query_with_context h q) 3).documents = []) :
    answer_simple env h q =
      .ok ("I couldn\x27t find any relevant cooking info in my database.",
        [], h) := by
  unfold answer_simple
  simp only [] 
  rw [if_pos hemp]

/-- C2 witness: a concrete environment whose retrieval is empty. -/
theorem c2_simple_no_data_witness :
    answer_simple
      ⟨fun _ _ => ⟨[], []⟩, fun p => .ok p, fun p _ => .ok p⟩ [] "hello" =
      .ok ("I couldn\x27t find any relevant cooking info in my database.",
        [], []) :=
  c2_simple_no_data _ [] "hello" rfl

/-- C3: (1) starting from any history within the 10-turn bound, any sequence
of `answer_question` calls keeps the Conversation History within 10 turns;
(2) every successful answer either leaves the history unchanged (the no-data
answers) or commits via `pushTurn`; (3) committing 11 turns in sequence via
`pushTurn` evicts exactly the first turn (FIFO): the result is the last 10
turns, so turn #1 is absent and turn #2 is the oldest present. -/
theorem c3_history_bound_fifo :
    (∀ (env : Env) (qs : List String) (h : List Turn),
      h.length ≤ 10 → (runAnswers env qs h).length ≤ 10) ∧
    (∀ (env : Env) (h : List Turn) (q a : String) (s : List String)
      (h' : List Turn), answer_question env h q = .ok (a, s, h') →
      h' = h ∨ h' = pushTurn h ⟨q, a⟩) ∧
    (∀ (t1 : Turn) (ts : List Turn), ts.length = 10 →
      List.foldl pushTurn [] (t1 :: ts) = ts) := by
  refine ⟨fun env qs h hh => runAnswers_length_le env qs h hh,
    fun env h q a s h' heq => answer_question_history env h q a s h' heq,
    fun t1 ts hlen => ?_⟩
  rw [foldl_pushTurn _ [] (by simp), List.nil_append]
  unfold takeLastN
  rw [List.reverse_cons, List.take_append_eq_append_take,
    List.take_of_length_le (by simp [hlen]),
    List.length_reverse, hlen]
  simp

/-- C3 witness: a run of one successful answer stays within the bound, the
success-commit disjunction at a concrete environment, and the 11-turn FIFO
eviction at concrete turns. -/
theorem c3_history_bound_fifo_witness :
    (runAnswers
      ⟨fun _ _ => ⟨["doc"], [⟨some "s"⟩]⟩, fun _ => .ok "1. sub",
        fun _ _ => .ok "A"⟩ ["hello"] []).length ≤ 10 ∧
    (([⟨"hello", "A"⟩] : List Turn) = [] ∨
      ([⟨"hello", "A"⟩] : List Turn) = pushTurn [] ⟨"hello", "A"⟩) ∧
    List.foldl pushTurn []
      (⟨"t0", "a0"⟩ :: List.replicate 10 (⟨"t", "a"⟩ : Turn)) =
      List.replicate 10 (⟨"t", "a"⟩ : Turn) :=
  ⟨c3_history_bound_fifo.1
      ⟨fun _ _ => ⟨["doc"], [⟨some "s"⟩]⟩, fun _ => .ok "1. sub",
        fun _ _ => .ok "A"⟩ ["hello"] [] (by decide),
    c3_history_bound_fifo.2.1
      ⟨fun _ _ => ⟨["doc"], [⟨some "s"⟩]⟩, fun _ => .ok "1. sub",
        fun _ _ => .ok "A"⟩ [] "hello" "A" ["s"] [⟨"hello", "A"⟩]
      (by decide),
    c3_history_bound_fifo.2.2 ⟨"t0", "a0"⟩ _ (by simp)⟩

/-- C4 counterexample: a generation failure whose message mentions "nan" but
whose exception class is not `RuntimeError` is NOT retried — the error
propagates even though the deterministic call would have succeeded; the
claim states that every failure whose message indicates a degenerate
distribution is retried deterministically. -/
theorem c4_counterexample :
    generate_answer envNonRuntimeNan "q" "ctx" = .error ⟨false, "nan"⟩ ∧
    envNonRuntimeNan.generate (buildPrompt "ctx" "q") false =
      .ok "recovered" ∧
    strContains "nan" "nan" = true := by
  refine ⟨by decide, rfl, by decide⟩

/-- C4 (amended): the sampled-call failure triggers exactly one retry with
deterministic decoding precisely when it is a `RuntimeError` whose message
mentions "probability", "inf" or "nan"; the retry's outcome (success or
failure) is final — there is never a second retry — and every other failure,
including non-`RuntimeError`s with such messages, propagates unmodified. -/
theorem c4_generation_retry (env : Env) (q c : String) :
    (∀ out, env.generate (buildPrompt c q) true = .ok out →
      generate_answer env q c = .ok (sanitize out)) ∧
    (∀ e, env.generate (buildPrompt c q) true = .error e →
      isDegenerate e = true →
      generate_answer env q c =
        (match env.generate (buildPrompt c q) false with
         | .ok out => .ok (sanitize out)
         | .error e2 => .error e2)) ∧
    (∀ e, env.generate (buildPrompt c q) true = .error e →
      isDegenerate e = false →
      generate_answer env q c = .error e) ∧
    (∀ e : Err, isDegenerate e = true ↔ e.isRuntime = true ∧
      (strContains e.msg "probability" = true ∨
        strContains e.msg "inf" = true ∨ strContains e.msg "nan" = true)) := by
  refine ⟨fun out hout => ?_, fun e herr hdeg => ?_, fun e herr hdeg => ?_,
    fun e => ?_⟩
  · unfold generate_answer
    simp only []
    rw [hout]
  · unfold generate_answer
    simp only []
    rw [herr]
    simp [hdeg]
  · unfold generate_answer
    simp only []
    rw [herr]
    simp [hdeg]
  · unfold isDegenerate
    simp [Bool.and_eq_true, Bool.or_eq_true, and_assoc, or_assoc]

/-- C4 witness: a `RuntimeError` mentioning "nan" is retried greedily. -/
theorem c4_generation_retry_witness :
    generate_answer
      ⟨fun _ _ => ⟨[], []⟩, fun p => .ok p,
        fun _ sample =>
          if sample then .error ⟨true, "nan"⟩ else .ok "recovered"⟩ "q" "c" =
      (match
        (⟨fun _ _ => ⟨[], []⟩, fun p => .ok p,
          fun _ sample =>
            if sample then .error ⟨true, "nan"⟩ else .ok "recovered"⟩ :
          Env).generate (buildPrompt "c" "q") false with
       | .ok out => .ok (sanitize out)
       | .error e2 => .error e2) :=
  (c4_generation_retry _ "q" "c").2.1 ⟨true, "nan"⟩ rfl (by decide)

theorem foldCollect_id (env : Env) :
    ∀ subs : List String, (∀ sq ∈ subs, (env.query sq 2).documents = []) →
    ∀ acc : List String × List PMeta,
      subs.foldl (fun acc sq =>
        let r := env.query sq 2
        if r.documents = [] then acc
        else (acc.1 ++ r.documents, acc.2 ++ r.metadatas)) acc = acc := by
  intro subs
  induction subs with
  | nil => intro _ acc; rfl
  | cons sq subs ih =>
    intro hemp acc
    rw [List.foldl_cons]
    have h1 := hemp sq (List.mem_cons_self _ _)
    have hstep : (let r := env.query sq 2
        if r.documents = [] then acc
        else (acc.1 ++ r.documents, acc.2 ++ r.metadatas)) = acc := by
      simp only []
      rw [if_pos h1]
    rw [hstep]
    exact ih (fun x hx => hemp x (List.mem_cons_of_mem _ hx)) acc

theorem collectSubResults_empty (env : Env) (subs : List String)
    (hemp : ∀ sq ∈ subs, (env.query sq 2).documents = []) :
    collectSubResults env subs = ([], []) := by
  unfold collectSubResults
  exact foldCollect_id env subs hemp ([], [])

/-- C9: on the reasoning path, if the decomposition call fails with any
error, or succeeds but parses to zero usable sub-questions, the result is
exactly the simple path applied to the original (pre-rewrite) question. -/
theorem c9_decomposition_fallback (env : Env) (h : List Turn) (q : String) :
    (∀ e, env.decompose
        (breakdownPrompt (rewrite_query_with_context h q)) = .error e →
      answer_with_reasoning env h q = answer_simple env h q) ∧
    (∀ gen, env.decompose
        (breakdownPrompt (rewrite_query_with_context h q)) = .ok gen →
      parseSubs (pyStrip gen) = [] →
      answer_with_reasoning env h q = answer_simple env h q) := by
  constructor
  · intro e he
    unfold answer_with_reasoning
    simp only []
    rw [he]
  · intro gen hgen hsubs
    unfold answer_with_reasoning
    simp only []
    rw [hgen]
    simp [hsubs]

/-- C9 witness: a decomposition error and a no-usable-lines decomposition
both fall back to the simple path at concrete environments. -/
theorem c9_decomposition_fallback_witness :
    answer_with_reasoning
        ⟨fun _ _ => ⟨["d"], [⟨some "s"⟩]⟩, fun _ => .error ⟨true, "boom"⟩,
          fun _ _ => .ok "A"⟩ [] "why" =
      answer_simple
        ⟨fun _ _ => ⟨["d"], [⟨some "s"⟩]⟩, fun _ => .error ⟨true, "boom"⟩,
          fun _ _ => .ok "A"⟩ [] "why" ∧
    answer_with_reasoning
        ⟨fun _ _ => ⟨["d"], [⟨some "s"⟩]⟩, fun _ => .ok "123\n!!",
          fun _ _ => .ok "A"⟩ [] "why" =
      answer_simple
        ⟨fun _ _ => ⟨["d"], [⟨some "s"⟩]⟩, fun _ => .ok "123\n!!",
          fun _ _ => .ok "A"⟩ [] "why" :=
  ⟨(c9_decomposition_fallback _ [] "why").1 ⟨true, "boom"⟩ rfl,
    (c9_decomposition_fallback _ [] "why").2 "123\n!!" rfl (by decide)⟩

/-- C10: on the reasoning path, when every sub-question retrieval returns an
empty result, `answer_question` returns the fixed string "I couldn't find
relevant information." — different from the simple path's no-data message —
with an empty source list and the conversation history unchanged. -/
theorem c10_reasoning_no_data (env : Env) (h : List Turn) (q gen : String)
    (hr : needs_reasoning q = true)
    (hdec : env.decompose
      (breakdownPrompt (rewrite_query_with_context h q)) = .ok gen)
    (hne : parseSubs (pyStrip gen) ≠ [])
    (hemp : ∀ sq ∈ parseSubs (pyStrip gen),
      (env.query sq 2).documents = []) :
    answer_question env h q =
      .ok ("I couldn\x27t find relevant information.", [], h) ∧
    ("I couldn\x27t find relevant information." : String) ≠
      "I couldn\x27t find any relevant cooking info in my database." := by
  refine ⟨?_, by decide⟩
  unfold answer_question
  rw [if_pos hr]
  unfold answer_with_reasoning
  simp only []
  rw [hdec]
  simp only []
  rw [if_neg hne, collectSubResults_empty env _ hemp]
  simp

/-- C10 witness: a concrete environment where decomposition yields one
sub-question and retrieval is empty everywhere. -/
theorem c10_reasoning_no_data_witness :
    answer_question
      ⟨fun _ _ => ⟨[], []⟩, fun _ => .ok "1. abc", fun _ _ => .ok "A"⟩
      [] "why" = .ok ("I couldn\x27t find relevant information.", [], []) :=
  (c10_reasoning_no_data
    ⟨fun _ _ => ⟨[], []⟩, fun _ => .ok "1. abc", fun _ _ => .ok "A"⟩
    [] "why" "1. abc" (by decide) rfl (by decide)
    (fun sq _ => rfl)).1

theorem answer_simple_sources (env : Env) (h : List Turn) (q a : String)
    (src : List String) (h' : List Turn)
    (hne : (env.query (rewrite_query_with_context h q) 3).documents ≠ [])
    (heq : answer_simple env h q = .ok (a, src, h')) :
    src = sourcesOf
      (env.query (rewrite_query_with_context h q) 3).metadatas := by
  unfold answer_simple at heq
  simp only [] at heq
  rw [if_neg hne] at heq
  split at heq
  · simp at heq
  · simp only [Except.ok.injEq, Prod.mk.injEq] at heq
    exact heq.2.1.symm

theorem answer_with_reasoning_sources (env : Env) (h : List Turn)
    (q gen a : String) (src : List String) (h' : List Turn)
    (hdec : env.decompose
      (breakdownPrompt (rewrite_query_with_context h q)) = .ok gen)
    (hsubs : parseSubs (pyStrip gen) ≠ [])
    (hcol : (collectSubResults env (parseSubs (pyStrip gen))).1 ≠ [])
    (heq : answer_with_reasoning env h q = .ok (a, src, h')) :
    src = sourcesOf
      (collectSubResults env (parseSubs (pyStrip gen))).2 := by
  unfold answer_with_reasoning at heq
  simp only [] at heq
  rw [hdec] at heq
  simp only [] at heq
  rw [if_neg hsubs, if_neg hcol] at heq
  split at heq
  · simp at heq
  · simp only [Except.ok.injEq, Prod.mk.injEq] at heq
    exact heq.2.1.symm

theorem answer_simple_nodup (env : Env) (h : List Turn) (q a : String)
    (src : List String) (h' : List Turn)
    (heq : answer_simple env h q = .ok (a, src, h')) : src.Nodup := by
  unfold answer_simple at heq
  simp only [] at heq
  split at heq
  · simp only [Except.ok.injEq, Prod.mk.injEq] at heq
    rw [← heq.2.1]
    exact List.nodup_nil
  · split at heq
    · simp at heq
    · simp only [Except.ok.injEq, Prod.mk.injEq] at heq
      rw [← heq.2.1]
      exact nodup_dedupFirst _

theorem answer_with_reasoning_nodup (env : Env) (h : List Turn)
    (q a : String) (src : List String) (h' : List Turn)
    (heq : answer_with_reasoning env h q = .ok (a, src, h')) : src.Nodup := by
  unfold answer_with_reasoning at heq
  simp only [] at heq
  split at heq
  · exact answer_simple_nodup _ _ _ _ _ _ heq
  · split at heq
    · exact answer_simple_nodup _ _ _ _ _ _ heq
    · split at heq
      · simp only [Except.ok.injEq, Prod.mk.injEq] at heq
        rw [← heq.2.1]
        exact List.nodup_nil
      · split at heq
        · simp at heq
        · simp only [Except.ok.injEq, Prod.mk.injEq] at heq
          rw [← heq.2.1]
          exact nodup_dedupFirst _

/-- C5 counterexample: in a reasoning-path run where four distinct contexts
with four distinct sources are retrieved but only the first three are used
for generation (cap of 3), the returned source list still contains all four
base names; the de-duplicated origins of the contexts actually used
(`claimedSourcesReasoning`, written from the claim) lack "d". -/
theorem c5_counterexample :
    answer_question envFourSources [] "why" =
      .ok ("ans", ["a", "b", "c", "d"], [⟨"why", "ans"⟩]) ∧
    claimedSourcesReasoning envFourSources [] "why" = ["a", "b", "c"] ∧
    "d" ∉ claimedSourcesReasoning envFourSources [] "why" := by
  refine ⟨by decide, by decide, by decide⟩

/-- C5 (amended): on every successful answer the returned source list is the
de-duplicated base-named origin list of ALL contexts retrieved for the
answer — on the simple path the three retrieved documents (which coincide
with those used), on the reasoning path every document returned for the
sub-questions, including ones later dropped by deduplication and the cap of
3 — and it never holds duplicate entries. -/
theorem c5_sources_all_retrieved :
    (∀ (env : Env) (h : List Turn) (q a : String) (src : List String)
      (h' : List Turn),
      (env.query (rewrite_query_with_context h q) 3).documents ≠ [] →
      answer_simple env h q = .ok (a, src, h') →
      src = sourcesOf
        (env.query (rewrite_query_with_context h q) 3).metadatas) ∧
    (∀ (env : Env) (h : List Turn) (q gen a : String) (src : List String)
      (h' : List Turn),
      env.decompose
        (breakdownPrompt (rewrite_query_with_context h q)) = .ok gen →
      parseSubs (pyStrip gen) ≠ [] →
      (collectSubResults env (parseSubs (pyStrip gen))).1 ≠ [] →
      answer_with_reasoning env h q = .ok (a, src, h') →
      src = sourcesOf
        (collectSubResults env (parseSubs (pyStrip gen))).2) ∧
    (∀ (env : Env) (h : List Turn) (q a : String) (src : List String)
      (h' : List Turn), answer_question env h q = .ok (a, src, h') →
      src.Nodup) := by
  refine ⟨fun env h q a src h' => answer_simple_sources env h q a src h',
    fun env h q gen a src h' =>
      answer_with_reasoning_sources env h q gen a src h',
    fun env h q a src h' heq => ?_⟩
  unfold answer_question at heq
  split at heq
  · exact answer_with_reasoning_nodup _ _ _ _ _ _ heq
  · exact answer_simple_nodup _ _ _ _ _ _ heq

/-- C5 witness: the amended statement applied at concrete environments. -/
theorem c5_sources_all_retrieved_witness :
    (["s"] : List String) = sourcesOf
      ((⟨fun _ _ => ⟨["doc"], [⟨some "s"⟩]⟩, fun _ => .ok "1. sub",
        fun _ _ => .ok "A"⟩ : Env).query
        (rewrite_query_with_context [] "hello") 3).metadatas ∧
    (["a", "b", "c", "d"] : List String).Nodup :=
  ⟨c5_sources_all_retrieved.1
      ⟨fun _ _ => ⟨["doc"], [⟨some "s"⟩]⟩, fun _ => .ok "1. sub",
        fun _ _ => .ok "A"⟩ [] "hello" "A" ["s"] [⟨"hello", "A"⟩]
      (by decide) (by decide),
    c5_sources_all_retrieved.2.2 envFourSources [] "why" "ans"
      ["a", "b", "c", "d"] [⟨"why", "ans"⟩] (by decide)⟩

/-- C7: the pairing-strength label is "strongly" for shared-compound counts
above 30, "moderately" above 15 (and at most 30), "somewhat" otherwise; on
concrete pair records with counts 40, 20 and 5 the chunk texts carry the
title-cased labels "Strongly", "Moderately" and "Somewhat" respectively
(and no other label). -/
theorem c7_pairing_strength :
    (∀ n : Nat,
      (30 < n → pairingStrength n = "strongly") ∧
      (15 < n ∧ n ≤ 30 → pairingStrength n = "moderately") ∧
      (n ≤ 15 → pairingStrength n = "somewhat")) ∧
    ((chunk_ingredient_data_json
        ⟨some [⟨"tomato", "basil", 40⟩, ⟨"lamb", "mint", 20⟩,
          ⟨"kale", "rice", 5⟩], none⟩ "ingredient_data.json").map
      (fun c => (strContains c.text "Strongly",
        strContains c.text "Moderately", strContains c.text "Somewhat"))) =
      [(true, false, false), (false, true, false), (false, false, true)] := by
  refine ⟨fun n => ⟨fun h1 => ?_, fun h2 => ?_, fun h3 => ?_⟩, by decide⟩
  · unfold pairingStrength
    rw [if_pos h1]
  · unfold pairingStrength
    rw [if_neg (by omega), if_pos h2.1]
  · unfold pairingStrength
    rw [if_neg (by omega), if_neg (by omega)]

/-- C7 witness: the threshold cases instantiated at 40, 20 and 5. -/
theorem c7_pairing_strength_witness :
    pairingStrength 40 = "strongly" ∧ pairingStrength 20 = "moderately" ∧
    pairingStrength 5 = "somewhat" :=
  ⟨(c7_pairing_strength.1 40).1 (by decide),
    (c7_pairing_strength.1 20).2.1 ⟨by decide, by decide⟩,
    (c7_pairing_strength.1 5).2.2 (by decide)⟩

/-- C8: the cuisine mapping with one cuisine and recipes
[[tomato, basil], [tomato, garlic]] yields exactly one chunk — a cuisine
profile whose text mentions "2 recipes" and "3 unique ingredients" — and in
general an ingredient-cuisine chunk exists exactly for the ingredients that
appear in at least two distinct cuisines. -/
theorem c8_cuisine_chunks :
    ((chunk_cuisine_ingredients_dict
        [("Italian", [["tomato", "basil"], ["tomato", "garlic"]])]
        "cuisine_ingredient_data.json").map
      (fun c => (c.metadata.lookup "type", strContains c.text "2 recipes",
        strContains c.text "3 unique ingredients"))) =
      [(some (.s "cuisine_profile"), true, true)] ∧
    ∀ (d : CuisineDict) (src i : String),
      (∃ c ∈ chunk_cuisine_ingredients_dict d src,
        c.metadata.lookup "type" = some (.s "ingredient_cuisine_map") ∧
        c.metadata.lookup "ingredient" = some (.s i)) ↔
      (i ∈ allIngredients d ∧ 2 ≤ (cuisinesOf d i).length) := by
  refine ⟨by decide, fun d src i => ?_⟩
  unfold chunk_cuisine_ingredients_dict
  simp only []
  constructor
  · rintro ⟨c, hc, htype, hing⟩
    rcases List.mem_append.mp hc with hpro | hmap
    · obtain ⟨p, _, hcp⟩ := List.mem_map.mp hpro
      have hlk : (cuisineProfileChunk src p).metadata.lookup "type" =
          some (.s "cuisine_profile") := rfl
      rw [← hcp] at htype
      exact absurd (hlk.symm.trans htype) (by decide)
    · obtain ⟨j, hj, hcj⟩ := List.mem_map.mp hmap
      have hlk : (ingredientMapChunk d src j).metadata.lookup "ingredient" =
          some (.s j) := rfl
      rw [← hcj] at hing
      have hji : j = i := by
        have h2 := hlk.symm.trans hing
        simpa using h2
      subst hji
      obtain ⟨hmem, hcnt⟩ := List.mem_filter.mp hj
      exact ⟨(mem_dedupFirst _ _).mp hmem, by simpa using hcnt⟩
  · rintro ⟨hmem, hcnt⟩
    refine ⟨ingredientMapChunk d src i, ?_, rfl, rfl⟩
    refine List.mem_append.mpr (Or.inr (List.mem_map.mpr ⟨i, ?_, rfl⟩))
    exact List.mem_filter.mpr
      ⟨(mem_dedupFirst _ _).mpr hmem, by simpa using hcnt⟩

/-- C8 witness: the general equivalence at a concrete two-cuisine mapping
sharing the ingredient "x". -/
theorem c8_cuisine_chunks_witness :
    (∃ c ∈ chunk_cuisine_ingredients_dict
        [("A", [["x"]]), ("B", [["x"]])] "f",
      c.metadata.lookup "type" = some (.s "ingredient_cuisine_map") ∧
      c.metadata.lookup "ingredient" = some (.s "x")) ↔
    ("x" ∈ allIngredients [("A", [["x"]]), ("B", [["x"]])] ∧
      2 ≤ (cuisinesOf [("A", [["x"]]), ("B", [["x"]])] "x").length) :=
  c8_cuisine_chunks.2 [("A", [["x"]]), ("B", [["x"]])] "f" "x"

theorem bestEnd_bounds (sep cs : List Char) :
    ∀ b p, bestEnd sep cs b = some p → 1 ≤ p ∧ p ≤ b := by
  intro b
  induction b with
  | zero => intro p hp; simp [bestEnd] at hp
  | succ b ih =>
    intro p hp
    unfold bestEnd at hp
    split at hp
    · simp only [Option.some.injEq] at hp
      omega
    · have := ih p hp
      omega

theorem chooseCut_le (cs : List Char) (b : Nat) :
    ∀ seps, chooseCut seps cs b ≤ b := by
  intro seps
  induction seps with
  | nil => simp [chooseCut]
  | cons s rest ih =>
    unfold chooseCut
    cases hbe : bestEnd s cs b with
    | some p => exact (bestEnd_bounds s cs b p hbe).2
    | none => exact ih

theorem splitCore_piece_le (b : Nat) (hb : 1 ≤ b) :
    ∀ (n : Nat) (cs : List Char), cs.length ≤ n →
      ∀ piece ∈ splitCore b cs, piece.length ≤ b := by
  intro n
  induction n with
  | zero =>
    intro cs hlen piece hmem
    have hnil : cs = [] := List.eq_nil_of_length_eq_zero (Nat.le_zero.mp hlen)
    subst hnil
    unfold splitCore at hmem
    rw [dif_pos (by simp)] at hmem
    rcases List.mem_singleton.mp hmem with rfl
    simp
  | succ n ih =>
    intro cs hlen piece hmem
    unfold splitCore at hmem
    split at hmem
    · rename_i hle
      rcases List.mem_singleton.mp hmem with rfl
      exact hle
    · rename_i hgt
      simp only [] at hmem
      rcases List.mem_cons.mp hmem with rfl | hmem2
      · rw [List.length_take]
        have hcc : chooseCut splitSeps cs b ≤ b := chooseCut_le cs b splitSeps
        omega
      · refine ih (cs.drop (max 1 (chooseCut splitSeps cs b))) ?_ piece hmem2
        rw [List.length_drop]
        have h1 : 1 ≤ max 1 (chooseCut splitSeps cs b) := le_max_left _ _
        omega

theorem overlapGo_piece_le (ov b : Nat) :
    ∀ (l : List (List Char)) (prev : List Char),
      (∀ x ∈ l, x.length ≤ b) →
      ∀ piece ∈ overlapGo ov prev l, piece.length ≤ ov + b := by
  intro l
  induction l with
  | nil => intro prev _ piece hmem; simp [overlapGo] at hmem
  | cons q qs ih =>
    intro prev hb piece hmem
    unfold overlapGo at hmem
    rcases List.mem_cons.mp hmem with rfl | hmem2
    · rw [List.length_append]
      have h1 : (takeLastN ov prev).length ≤ ov := by
        rw [takeLastN_length]
        exact Nat.min_le_left _ _
      have h2 : q.length ≤ b := hb q (List.mem_cons_self _ _)
      omega
    · exact ih q (fun x hx => hb x (List.mem_cons_of_mem _ hx)) piece hmem2

theorem withOverlap_piece_le (ov b : Nat) (l : List (List Char))
    (hb : ∀ x ∈ l, x.length ≤ b) :
    ∀ piece ∈ withOverlap ov l, piece.length ≤ ov + b := by
  cases l with
  | nil => intro piece hmem; simp [withOverlap] at hmem
  | cons p ps =>
    intro piece hmem
    unfold withOverlap at hmem
    rcases List.mem_cons.mp hmem with rfl | hmem2
    · exact Nat.le_trans (hb piece (List.mem_cons_self _ _))
        (Nat.le_add_left b ov)
    · exact overlapGo_piece_le ov b ps p
        (fun x hx => hb x (List.mem_cons_of_mem _ hx)) piece hmem2

theorem split_text_piece_le (size ov : Nat) (hov : ov < size) (s : String) :
    ∀ piece ∈ split_text size ov s, piece.data.length ≤ size := by
  intro piece hmem
  unfold split_text at hmem
  obtain ⟨cs, hcs, rfl⟩ := List.mem_map.mp hmem
  have h1 : ∀ x ∈ splitCore (size - ov) s.data, x.length ≤ size - ov :=
    fun x hx =>
      splitCore_piece_le (size - ov) (by omega) s.data.length s.data
        le_rfl x hx
  have h2 := withOverlap_piece_le ov (size - ov) _ h1 cs hcs
  show cs.length ≤ size
  omega

theorem enumIdx_mem {α : Type} :
    ∀ (l : List α) (k : Nat) (p : Nat × α), p ∈ enumIdx k l → p.2 ∈ l := by
  intro l
  induction l with
  | nil => intro k p hp; simp [enumIdx] at hp
  | cons x xs ih =>
    intro k p hp
    unfold enumIdx at hp
    rcases List.mem_cons.mp hp with rfl | hp2
    · exact List.mem_cons_self _ _
    · exact List.mem_cons_of_mem _ (ih (k + 1) p hp2)

theorem arc_piece_le (size ov : Nat) (hov : ov < size) (chunks : List Chunk) :
    ∀ c ∈ apply_recursive_chunking chunks size ov,
      c.text.data.length ≤ size := by
  intro c hc
  unfold apply_recursive_chunking at hc
  obtain ⟨chunk, _, hcin⟩ := List.mem_flatMap.mp hc
  split at hcin
  · obtain ⟨p, hp, rfl⟩ := List.mem_map.mp hcin
    exact split_text_piece_le size ov hov chunk.text p.2
      (enumIdx_mem _ 0 p hp)
  · rename_i hshort
    rcases List.mem_singleton.mp hcin with rfl
    exact Nat.le_of_not_lt hshort

theorem arc_noop (size ov : Nat) :
    ∀ chunks : List Chunk, (∀ c ∈ chunks, c.text.data.length ≤ size) →
      apply_recursive_chunking chunks size ov = chunks := by
  intro chunks
  induction chunks with
  | nil => intro _; rfl
  | cons c cs ih =>
    intro hall
    unfold apply_recursive_chunking
    rw [List.flatMap_cons,
      if_neg (Nat.not_lt.mpr (hall c (List.mem_cons_self _ _))),
      List.singleton_append]
    congr 1
    exact ih (fun x hx => hall x (List.mem_cons_of_mem _ hx))

/-- C6: with an overlap smaller than the size budget, (1) every chunk whose
text is at or under the budget passes through the splitter unchanged, and
(2) the splitter is idempotent on lists of chunks: applying it twice with
the same budget equals applying it once. -/
theorem c6_splitter_idempotent (size ov : Nat) (hov : ov < size) :
    (∀ c : Chunk, c.text.data.length ≤ size →
      apply_recursive_chunking [c] size ov = [c]) ∧
    ∀ chunks : List Chunk,
      apply_recursive_chunking (apply_recursive_chunking chunks size ov)
        size ov = apply_recursive_chunking chunks size ov := by
  constructor
  · intro c hc
    refine arc_noop size ov [c] ?_
    intro x hx
    rcases List.mem_singleton.mp hx with rfl
    exact hc
  · intro chunks
    exact arc_noop size ov _ (arc_piece_le size ov hov chunks)

/-- C6 witness: the Python defaults (size 500, overlap 50) at concrete
chunks. -/
theorem c6_splitter_idempotent_witness :
    apply_recursive_chunking [⟨"short text", [("type", .s "t")]⟩] 500 50 =
      [⟨"short text", [("type", .s "t")]⟩] ∧
    apply_recursive_chunking
        (apply_recursive_chunking [⟨"short text", []⟩] 500 50) 500 50 =
      apply_recursive_chunking [⟨"short text", []⟩] 500 50 :=
  ⟨(c6_splitter_idempotent 500 50 (by decide)).1 _ (by decide),
    (c6_splitter_idempotent 500 50 (by decide)).2 [⟨"short text", []⟩]⟩
